import Mathlib

/-!
Verification of the real-time synchronization layer of the jj_network_app
dashboard: the WebSocket reconnect manager (`useWebSocketManager`) and its
event dispatcher / client-cache patcher.

The embedding follows the source hook closely:
* `Client` is the shape of a cached client record as the handlers use it
  (fields read or written by the `onmessage` mutators).
* `MsgData` is the parsed JSON payload of an inbound frame, with the fields
  the handlers read; optional fields are `Option String` because the code
  guards them with JavaScript truthiness checks.
* `RawFrame` distinguishes a payload that `JSON.parse` accepts from one on
  which it throws; `onmessage` returns `Except Unit _` because the handler
  body has no try/catch around `JSON.parse`.
* `MState`/`step` is the reconnection controller: the mutable refs of the
  hook (`reconnectDelayRef`, `wsRef`, `reconnectTimeoutRef`,
  `heartbeatIntervalRef`) plus the lifecycle status of every socket ever
  created, driven by the transport/timer events the browser can deliver.
-/

namespace JJNet

/-- A cached client record, with the fields the `onmessage` mutators read or
write (`id`, `state`, `status`, `billing_date`, `name`). -/
structure Client where
  id : Nat
  name : String
  state : String
  status : String
  billing_date : String
deriving Repr, DecidableEq

/-- The parsed JSON payload of an inbound frame, as the dispatcher reads it:
discriminator `event`, and the per-kind fields.  `billing_date` and `status`
are optional because the code tests them for truthiness before use. -/
structure MsgData where
  event : String
  id : Nat
  client : String
  state : String
  client_id : Nat
  billing_date : Option String
  status : Option String
deriving Repr, DecidableEq

/-- An inbound frame before parsing: either `JSON.parse` succeeds and yields
a payload, or it throws (`malformed`). -/
inductive RawFrame where
  | malformed : RawFrame
  | parsed : MsgData → RawFrame
deriving Repr, DecidableEq

/-- Observable side effects of dispatching one frame: a toast notification
(`showToast(msg, severity)`) or an invalidation of the clients collection
(`invalidateTags([{type: Clients, id: LIST}])`). -/
inductive Effect where
  | toast : String → String → Effect
  | invalidate : Effect
deriving Repr, DecidableEq

/-- JavaScript truthiness of an optional string field: `undefined` and the
empty string are falsy. -/
def jsTruthy : Option String → Bool
  | none => false
  | some s => !s.isEmpty

/-- Model of `draft.find(c => c.id === key)` followed by an in-place mutation of the
found record: the first record whose `id` matches `key` is replaced by the
mutator's result (which also reports the toasts it emitted); every other
record, and the shape of the collection, is untouched.  No match: no change,
no effects. -/
def findPatch (key : Nat) (m : Client → Client × List Effect) :
    List Client → List Client × List Effect
  | [] => ([], [])
  | c :: cs =>
    if c.id = key then
      let r := m c
      (r.1 :: cs, r.2)
    else
      let r := findPatch key m cs
      (c :: r.1, r.2)

/-- The `state_update` mutator: if the found client's `state` differs from
the event's, overwrite it and toast "`<data.client>` is now `<data.state>`"
with severity `error` when the new state is `DOWN`, else `success`. -/
def stateMutator (d : MsgData) (c : Client) : Client × List Effect :=
  if c.state ≠ d.state then
    ({ c with state := d.state },
      [Effect.toast (d.client ++ " is now " ++ d.state)
        (if d.state = "DOWN" then "error" else "success")])
  else
    (c, [])

/-- The `billing_update` mutator: if the event carries a truthy
`billing_date`, overwrite it; if it carries a truthy `status` different from
the current one, overwrite it and toast "`<client.name>` is now `<status>`"
with severity `info`. -/
def billingMutator (d : MsgData) (c : Client) : Client × List Effect :=
  let c1 :=
    match d.billing_date with
    | some s => if s.isEmpty then c else { c with billing_date := s }
    | none => c
  match d.status with
  | some st =>
    if !st.isEmpty && c1.status ≠ st then
      ({ c1 with status := st }, [Effect.toast (c1.name ++ " is now " ++ st) "info"])
    else
      (c1, [])
  | none => (c1, [])

/-- The body of the dispatcher's `switch (data.event)`, acting on the cached
collection and returning the new collection together with the emitted
effects.  Unknown kinds fall through to the default arm: no cache change, no
user-visible effect (the default arm only logs in development builds). -/
def handleEvent (d : MsgData) (cache : List Client) : List Client × List Effect :=
  if d.event = "state_update" then
    findPatch d.id (stateMutator d) cache
  else if d.event = "billing_update" then
    findPatch d.client_id (billingMutator d) cache
  else if d.event = "billing_update_bulk" then
    (cache, [Effect.toast "Bulk billing update completed." "success", Effect.invalidate])
  else
    (cache, [])

/-- The `ws.onmessage` handler: `JSON.parse(event.data)` is not wrapped in
try/catch, so a frame `JSON.parse` rejects makes the handler throw
(`Except.error`); a parseable frame is dispatched by `handleEvent`. -/
def onmessage (f : RawFrame) (cache : List Client) :
    Except Unit (List Client × List Effect) :=
  match f with
  | RawFrame.malformed => Except.error ()
  | RawFrame.parsed d => Except.ok (handleEvent d cache)

/-! ## The reconnection controller -/

/-- Lifecycle status of one WebSocket object, by creation order
(generation).  `connecting` is the state right after `new WebSocket(...)`;
`closing` after `close()` was called but before the close event has been
delivered; `closed` once the close event has fired. -/
inductive SockSt where
  | connecting : SockSt
  | opened : SockSt
  | closing : SockSt
  | closed : SockSt
deriving Repr, DecidableEq

/-- A socket that can still deliver events and carry traffic: one whose
close event has not been initiated. -/
def SockSt.live : SockSt → Bool
  | .connecting => true
  | .opened => true
  | _ => false

/-- The controller's mutable state: the refs of the hook
(`reconnectDelayRef`, `wsRef`, `reconnectTimeoutRef`,
`heartbeatIntervalRef`) plus the status of every socket created so far
(indexed by generation) and a ghost counter of how many times
`scheduleReconnect` has run. -/
structure MState where
  delay : Nat
  wsRef : Option Nat
  socks : List SockSt
  reconnectTimer : Option Nat
  heartbeat : Option Nat
  schedCount : Nat
deriving Repr, DecidableEq

/-- Model of `ws.close()` on socket `g`: a connecting or open socket starts closing;
on an already closing/closed socket the call is a no-op. -/
def closeSock (g : Nat) (socks : List SockSt) : List SockSt :=
  match socks[g]? with
  | some SockSt.connecting => socks.set g SockSt.closing
  | some SockSt.opened => socks.set g SockSt.closing
  | _ => socks

/-- Model of `if (wsRef.current) wsRef.current.close()`: close the socket
currently held in `wsRef`, if any. -/
def closeCurrent (s : MState) : List SockSt :=
  match s.wsRef with
  | some g => closeSock g s.socks
  | none => s.socks

/-- Model of `connect()`: close the old socket held in `wsRef`, then create a new
WebSocket (a fresh generation in `connecting` state) and store it in
`wsRef`. -/
def connect (s : MState) : MState :=
  { s with
    socks := closeCurrent s ++ [SockSt.connecting],
    wsRef := some (closeCurrent s).length }

/-- Model of `scheduleReconnect()`: store in `reconnectTimeoutRef` a timer armed with
the current `reconnectDelayRef` value (the doubling happens inside the timer
callback, modelled in the `timerFire` step). -/
def scheduleReconnect (s : MState) : MState :=
  { s with reconnectTimer := some s.delay, schedCount := s.schedCount + 1 }

/-- The events the environment (transport and timer queue) can deliver to
the controller; socket events name the generation they are delivered for. -/
inductive Ev where
  | openEvt : Nat → Ev
  | closeEvt : Nat → Ev
  | errorEvt : Nat → Ev
  | timerFire : Ev
  | teardown : Ev
deriving Repr, DecidableEq

/-- One step of the controller.  Each branch is its handler in the hook:

* `openEvt g`: the handshake of a connecting socket completes and
  `ws.onopen` runs — reset `reconnectDelayRef` to 1000 and (re)start the
  heartbeat interval for this socket.
* `closeEvt g`: the transport delivers the close event of a socket that has
  not already fully closed and `ws.onclose` runs — clear the heartbeat
  interval and call `scheduleReconnect()`.  There is no shutdown guard in
  the handler.
* `errorEvt g`: `ws.onerror` runs on a live socket — it only calls
  `ws.close()`.
* `timerFire`: a pending reconnect timeout fires — `connect()`, then double
  `reconnectDelayRef` capped at 30000.
* `teardown`: the `useEffect` cleanup — close the current socket, clear the
  heartbeat interval, clear the reconnect timeout. -/
def step (e : Ev) (s : MState) : MState :=
  match e with
  | Ev.openEvt g =>
    if s.socks[g]? = some SockSt.connecting then
      { s with socks := s.socks.set g SockSt.opened, delay := 1000, heartbeat := some g }
    else s
  | Ev.closeEvt g =>
    match s.socks[g]? with
    | some SockSt.connecting =>
      scheduleReconnect { s with socks := s.socks.set g SockSt.closed, heartbeat := none }
    | some SockSt.opened =>
      scheduleReconnect { s with socks := s.socks.set g SockSt.closed, heartbeat := none }
    | some SockSt.closing =>
      scheduleReconnect { s with socks := s.socks.set g SockSt.closed, heartbeat := none }
    | _ => s
  | Ev.errorEvt g =>
    match s.socks[g]? with
    | some SockSt.connecting => { s with socks := closeSock g s.socks }
    | some SockSt.opened => { s with socks := closeSock g s.socks }
    | _ => s
  | Ev.timerFire =>
    match s.reconnectTimer with
    | some _ =>
      let s1 := connect { s with reconnectTimer := none }
      { s1 with delay := min (s1.delay * 2) 30000 }
    | none => s
  | Ev.teardown =>
    { s with socks := closeCurrent s, heartbeat := none, reconnectTimer := none }

/-- State of the refs before the hook's `useEffect` body runs. -/
def init : MState :=
  { delay := 1000, wsRef := none, socks := [], reconnectTimer := none,
    heartbeat := none, schedCount := 0 }

/-- The controller right after mount: the `useEffect` body calls
`connect()`. -/
def start : MState := connect init

/-- Run a sequence of environment events from a state. -/
def run (es : List Ev) (s : MState) : MState :=
  es.foldl (fun a e => step e a) s

/-! ## Lemmas about the cache patcher -/

/-- When the first record with the event's id sits after a prefix of
non-matching records, `findPatch` mutates exactly that record and returns
the mutator's effects. -/
theorem findPatch_append (key : Nat) (m : Client → Client × List Effect)
    (pre post : List Client) (c : Client)
    (hpre : ∀ x ∈ pre, x.id ≠ key) (hc : c.id = key) :
    findPatch key m (pre ++ c :: post) = (pre ++ (m c).1 :: post, (m c).2) := by
  induction pre with
  | nil => simp [findPatch, hc]
  | cons a as ih =>
    have ha : a.id ≠ key := hpre a (List.mem_cons_self a as)
    have ih' := ih (fun x hx => hpre x (List.mem_cons_of_mem a hx))
    simp [findPatch, ha, ih']

/-- When no record matches the key, `findPatch` changes nothing and emits no
effects. -/
theorem findPatch_no_match (key : Nat) (m : Client → Client × List Effect)
    (l : List Client) (h : ∀ x ∈ l, x.id ≠ key) :
    findPatch key m l = (l, []) := by
  induction l with
  | nil => rfl
  | cons a as ih =>
    have ha : a.id ≠ key := h a (List.mem_cons_self a as)
    have ih' := ih (fun x hx => h x (List.mem_cons_of_mem a hx))
    simp [findPatch, ha, ih']

/-- The patched collection always has the same length as the original. -/
theorem findPatch_length (key : Nat) (m : Client → Client × List Effect)
    (l : List Client) : (findPatch key m l).1.length = l.length := by
  induction l with
  | nil => rfl
  | cons a as ih =>
    by_cases ha : a.id = key <;> simp [findPatch, ha, ih]

/-- Every slot of the patched collection holds either its old record
unchanged, or (when the old record has the matched id) the mutated version
of its old record. -/
theorem findPatch_getElem (key : Nat) (m : Client → Client × List Effect)
    (l : List Client) (i : Nat) (c : Client) (h : l[i]? = some c) :
    ((findPatch key m l).1)[i]? = some c ∨
      (c.id = key ∧ ((findPatch key m l).1)[i]? = some (m c).1) := by
  induction l generalizing i with
  | nil => simp at h
  | cons a as ih =>
    by_cases ha : a.id = key
    · cases i with
      | zero =>
        simp at h
        subst h
        right
        exact ⟨ha, by simp [findPatch, ha]⟩
      | succ j =>
        simp at h
        left
        simp [findPatch, ha, h]
    · cases i with
      | zero =>
        simp at h
        subst h
        left
        simp [findPatch, ha]
      | succ j =>
        simp at h
        rcases ih j h with h' | ⟨hid, h'⟩
        · left
          simpa [findPatch, ha] using h'
        · right
          exact ⟨hid, by simpa [findPatch, ha] using h'⟩

/-- The `state_update` mutator can change only the `state` field. -/
theorem stateMutator_fields (d : MsgData) (c : Client) :
    (stateMutator d c).1.id = c.id ∧ (stateMutator d c).1.name = c.name ∧
      (stateMutator d c).1.status = c.status ∧
      (stateMutator d c).1.billing_date = c.billing_date := by
  unfold stateMutator
  by_cases h : c.state = d.state <;> simp [h]

/-- The `billing_update` mutator can change only the `billing_date` and
`status` fields. -/
theorem billingMutator_fields (d : MsgData) (c : Client) :
    (billingMutator d c).1.id = c.id ∧ (billingMutator d c).1.name = c.name ∧
      (billingMutator d c).1.state = c.state := by
  unfold billingMutator
  rcases d.billing_date with _ | bd <;> rcases d.status with _ | st <;>
    dsimp only <;> (repeat' split) <;> simp_all

/-! ## Claim theorems about the dispatcher and cache patcher -/

/-- C2 (counter-evidence): the `onmessage` handler calls
`JSON.parse(event.data)` without a try/catch, so a frame whose payload is
not parseable as JSON makes the handler throw past its boundary instead of
being dropped and logged: dispatching `RawFrame.malformed` yields
`Except.error`, for every cache. -/
theorem malformed_frame_throws (cache : List Client) :
    onmessage RawFrame.malformed cache = Except.error () := rfl

/-- C5: a `state_update` event whose id is present in the cache (here: the
first record with that id) and whose state differs from the cached one
updates exactly that record's `state` field to the event's state and emits
exactly one toast, whose severity is `error` iff the new state is `DOWN`
(and `success` otherwise). -/
theorem state_update_patches_and_notifies (d : MsgData) (pre post : List Client)
    (c : Client) (hev : d.event = "state_update")
    (hpre : ∀ x ∈ pre, x.id ≠ d.id) (hc : c.id = d.id)
    (hdiff : c.state ≠ d.state) :
    (handleEvent d (pre ++ c :: post)).1
        = pre ++ { c with state := d.state } :: post ∧
      ∃ sev, (handleEvent d (pre ++ c :: post)).2
          = [Effect.toast (d.client ++ " is now " ++ d.state) sev] ∧
        (sev = "error" ↔ d.state = "DOWN") ∧
        (d.state ≠ "DOWN" → sev = "success") := by
  have hfp := findPatch_append d.id (stateMutator d) pre post c hpre hc
  have hm : stateMutator d c
      = ({ c with state := d.state },
        [Effect.toast (d.client ++ " is now " ++ d.state)
          (if d.state = "DOWN" then "error" else "success")]) := by
    simp [stateMutator, hdiff]
  rw [handleEvent, if_pos hev, hfp, hm]
  refine ⟨rfl, if d.state = "DOWN" then "error" else "success", rfl, ?_, ?_⟩
  · by_cases h : d.state = "DOWN"
    · simp [h]
    · simp only [if_neg h]
      constructor
      · intro hcontra
        exact absurd hcontra (by decide)
      · intro hcontra
        exact absurd hcontra h
  · intro h
    simp [h]

/-- A concrete cached client record used by the witnesses. -/
def acme : Client :=
  { id := 7, name := "Acme", state := "UP", status := "PAID",
    billing_date := "2025-01-01" }

/-- A concrete `state_update` event used by the witnesses (new state DOWN). -/
def evDown : MsgData :=
  { event := "state_update", id := 7, client := "Acme", state := "DOWN",
    client_id := 0, billing_date := none, status := none }

/-- A concrete redundant `state_update` event (state already UP). -/
def evUp : MsgData :=
  { event := "state_update", id := 7, client := "Acme", state := "UP",
    client_id := 0, billing_date := none, status := none }

/-- A concrete `billing_update` event naming an id absent from the cache. -/
def evBillingUnknown : MsgData :=
  { event := "billing_update", id := 0, client := "", state := "",
    client_id := 99, billing_date := some "2025-02-02",
    status := some "UNPAID" }

/-- A concrete `billing_update_bulk` event. -/
def evBulk : MsgData :=
  { event := "billing_update_bulk", id := 0, client := "", state := "",
    client_id := 0, billing_date := none, status := none }

/-- Witness for C5 at a concrete cache and event. -/
theorem state_update_patches_and_notifies_witness :
    (handleEvent evDown ([] ++ acme :: [])).1
        = [] ++ { acme with state := evDown.state } :: [] ∧
      ∃ sev, (handleEvent evDown ([] ++ acme :: [])).2
          = [Effect.toast (evDown.client ++ " is now " ++ evDown.state) sev] ∧
        (sev = "error" ↔ evDown.state = "DOWN") ∧
        (evDown.state ≠ "DOWN" → sev = "success") :=
  state_update_patches_and_notifies evDown [] [] acme rfl (by simp) rfl
    (by decide)

/-- C7: a `state_update` event whose id is present in the cache but whose
state equals the cached record's current state leaves the whole cache
unchanged and emits no notification. -/
theorem redundant_state_update_is_noop (d : MsgData) (pre post : List Client)
    (c : Client) (hev : d.event = "state_update")
    (hpre : ∀ x ∈ pre, x.id ≠ d.id) (hc : c.id = d.id)
    (hsame : c.state = d.state) :
    handleEvent d (pre ++ c :: post) = (pre ++ c :: post, []) := by
  have hfp := findPatch_append d.id (stateMutator d) pre post c hpre hc
  have hm : stateMutator d c = (c, []) := by simp [stateMutator, hsame]
  rw [handleEvent, if_pos hev, hfp, hm]

/-- Witness for C7 at a concrete cache and event. -/
theorem redundant_state_update_is_noop_witness :
    handleEvent evUp ([] ++ acme :: []) = ([] ++ acme :: [], []) :=
  redundant_state_update_is_noop evUp [] [] acme rfl (by simp) rfl rfl

/-- C8: a `billing_update` event whose `client_id` matches no cached record
leaves the cache unchanged, emits no notification, and the handler does not
throw (it returns normally). -/
theorem billing_update_unknown_id_silent (d : MsgData) (cache : List Client)
    (hev : d.event = "billing_update")
    (hmiss : ∀ x ∈ cache, x.id ≠ d.client_id) :
    onmessage (RawFrame.parsed d) cache = Except.ok (cache, []) := by
  have hfp := findPatch_no_match d.client_id (billingMutator d) cache hmiss
  have hne : d.event ≠ "state_update" := by
    rw [hev]; decide
  rw [onmessage, handleEvent, if_neg hne, if_pos hev, hfp]

/-- Witness for C8 at a concrete cache and event. -/
theorem billing_update_unknown_id_silent_witness :
    onmessage (RawFrame.parsed evBillingUnknown) [acme]
      = Except.ok ([acme], []) :=
  billing_update_unknown_id_silent evBillingUnknown [acme] rfl (by decide)

/-- C9: a `billing_update_bulk` event leaves the cache untouched (no
per-record patch) and emits exactly two effects: one toast announcing the
bulk update and one collection invalidation. -/
theorem billing_update_bulk_invalidates (d : MsgData) (cache : List Client)
    (hev : d.event = "billing_update_bulk") :
    handleEvent d cache
      = (cache,
        [Effect.toast "Bulk billing update completed." "success",
          Effect.invalidate]) := by
  have h1 : d.event ≠ "state_update" := by rw [hev]; decide
  have h2 : d.event ≠ "billing_update" := by rw [hev]; decide
  rw [handleEvent, if_neg h1, if_neg h2, if_pos hev]

/-- Witness for C9 at a concrete cache and event. -/
theorem billing_update_bulk_invalidates_witness :
    handleEvent evBulk [acme]
      = ([acme],
        [Effect.toast "Bulk billing update completed." "success",
          Effect.invalidate]) :=
  billing_update_bulk_invalidates evBulk [acme] rfl

/-- The record id a cache-patching event locates its target by: `data.id`
for `state_update`, `data.client_id` for `billing_update`. -/
def eventKey (d : MsgData) : Nat :=
  if d.event = "state_update" then d.id else d.client_id

/-- C6: dispatching any event never inserts or removes cache entries (the
collection keeps its length), and every slot keeps its `id` and `name`; a
`state_update` additionally keeps `status` and `billing_date` (it may touch
only `state`), a `billing_update` keeps `state` (it may touch only
`billing_date` and `status`), any other event leaves the record identical,
and a record whose id differs from the event's key is never mutated. -/
theorem dispatch_patches_only_named_fields (d : MsgData) (cache : List Client)
    (i : Nat) (c c' : Client) (h1 : cache[i]? = some c)
    (h2 : ((handleEvent d cache).1)[i]? = some c') :
    (handleEvent d cache).1.length = cache.length ∧
      c'.id = c.id ∧ c'.name = c.name ∧
      (d.event = "state_update" →
        c'.status = c.status ∧ c'.billing_date = c.billing_date) ∧
      (d.event = "billing_update" → c'.state = c.state) ∧
      (d.event ≠ "state_update" → d.event ≠ "billing_update" → c' = c) ∧
      (c.id ≠ eventKey d → c' = c) := by
  by_cases hs : d.event = "state_update"
  · have hne : d.event ≠ "billing_update" := by rw [hs]; decide
    rw [handleEvent, if_pos hs] at h2 ⊢
    rcases findPatch_getElem d.id (stateMutator d) cache i c h1 with h' | ⟨hid, h'⟩
    · have hcc : c' = c := by rw [h'] at h2; exact (Option.some_inj.mp h2).symm
      subst hcc
      exact ⟨findPatch_length .., rfl, rfl, fun _ => ⟨rfl, rfl⟩,
        fun h => absurd h hne, fun _ _ => rfl, fun _ => rfl⟩
    · have hcc : c' = (stateMutator d c).1 := by
        rw [h'] at h2; exact (Option.some_inj.mp h2).symm
      obtain ⟨f1, f2, f3, f4⟩ := stateMutator_fields d c
      refine ⟨findPatch_length .., hcc ▸ f1, hcc ▸ f2,
        fun _ => ⟨hcc ▸ f3, hcc ▸ f4⟩, fun h => absurd h hne,
        fun h _ => absurd hs h, fun h => ?_⟩
      exact absurd (hid.trans (by rw [eventKey, if_pos hs])) h
  · by_cases hb : d.event = "billing_update"
    · rw [handleEvent, if_neg hs, if_pos hb] at h2 ⊢
      rcases findPatch_getElem d.client_id (billingMutator d) cache i c h1 with
        h' | ⟨hid, h'⟩
      · have hcc : c' = c := by rw [h'] at h2; exact (Option.some_inj.mp h2).symm
        subst hcc
        exact ⟨findPatch_length .., rfl, rfl, fun h => absurd h hs,
          fun _ => rfl, fun _ h => absurd hb h, fun _ => rfl⟩
      · have hcc : c' = (billingMutator d c).1 := by
          rw [h'] at h2; exact (Option.some_inj.mp h2).symm
        obtain ⟨f1, f2, f3⟩ := billingMutator_fields d c
        refine ⟨findPatch_length .., hcc ▸ f1, hcc ▸ f2, fun h => absurd h hs,
          fun _ => hcc ▸ f3, fun _ h => absurd hb h, fun h => ?_⟩
        exact absurd (hid.trans (by rw [eventKey, if_neg hs])) h
    · have hcache : (handleEvent d cache).1 = cache := by
        rw [handleEvent, if_neg hs, if_neg hb]
        by_cases hk : d.event = "billing_update_bulk" <;> simp [hk]
      rw [hcache] at h2
      have hcc : c' = c := by rw [h1] at h2; exact (Option.some_inj.mp h2).symm
      subst hcc
      exact ⟨by rw [hcache], rfl, rfl, fun _ => ⟨rfl, rfl⟩, fun _ => rfl,
        fun _ _ => rfl, fun _ => rfl⟩

/-! ## Lemmas about the reconnection controller -/

/-- Closing a socket does not change how many sockets exist. -/
theorem length_closeSock (g : Nat) (l : List SockSt) :
    (closeSock g l).length = l.length := by
  unfold closeSock
  split <;> simp

/-- Closing socket `g` leaves every other slot unchanged. -/
theorem getElem?_closeSock_ne (g g' : Nat) (l : List SockSt) (h : g ≠ g') :
    (closeSock g l)[g']? = l[g']? := by
  unfold closeSock
  split <;> first
    | rfl
    | exact List.getElem?_set_ne h

/-- After `ws.close()` on socket `g`, that socket is no longer live. -/
theorem closeSock_not_live (g : Nat) (l : List SockSt) (st : SockSt)
    (h : (closeSock g l)[g]? = some st) : st.live = false := by
  unfold closeSock at h
  split at h
  next heq =>
    have hlt : g < l.length := (List.getElem?_eq_some.mp heq).1
    rw [List.getElem?_set_eq_of_lt _ hlt] at h
    cases Option.some_inj.mp h
    rfl
  next heq =>
    have hlt : g < l.length := (List.getElem?_eq_some.mp heq).1
    rw [List.getElem?_set_eq_of_lt _ hlt] at h
    cases Option.some_inj.mp h
    rfl
  next h1 h2 =>
    cases st with
    | connecting => exact absurd h h1
    | opened => exact absurd h h2
    | closing => rfl
    | closed => rfl

/-- The controller invariant behind C3: every live socket is the one held in
`wsRef`.  Since `wsRef` holds at most one generation, at most one live
socket can exist. -/
def liveInv (s : MState) : Prop :=
  ∀ g st, s.socks[g]? = some st → st.live = true → s.wsRef = some g

/-- After closing the current socket no socket is live at all (given the
invariant): the current one was just closed and no other one was live. -/
theorem closeCurrent_no_live (s : MState) (hinv : liveInv s) (g : Nat)
    (st : SockSt) (hg : (closeCurrent s)[g]? = some st)
    (hlive : st.live = true) : False := by
  unfold closeCurrent at hg
  cases href : s.wsRef with
  | none =>
    rw [href] at hg
    have := hinv g st hg hlive
    rw [href] at this
    cases this
  | some g0 =>
    rw [href] at hg
    by_cases hgg : g0 = g
    · subst hgg
      rw [closeSock_not_live g0 s.socks st hg] at hlive
      cases hlive
    · rw [getElem?_closeSock_ne g0 g s.socks hgg] at hg
      have := hinv g st hg hlive
      rw [href] at this
      exact hgg (Option.some_inj.mp this)

/-- Model of `connect()` preserves the invariant: the old socket is closed before
the new one is created, so the fresh socket is the only live one. -/
theorem liveInv_connect (s : MState) (hinv : liveInv s) :
    liveInv (connect s) := by
  intro g st hg hlive
  have hg' : (closeCurrent s ++ [SockSt.connecting])[g]? = some st := hg
  show some (closeCurrent s).length = some g
  rw [List.getElem?_append] at hg'
  by_cases hlt : g < (closeCurrent s).length
  · rw [if_pos hlt] at hg'
    exact (closeCurrent_no_live s hinv g st hg' hlive).elim
  · rw [if_neg hlt] at hg'
    congr 1
    by_cases hz : g - (closeCurrent s).length = 0
    · omega
    · rw [List.getElem?_eq_none (l := [SockSt.connecting]) (by simp; omega)] at hg'
      cases hg'

/-- A socket set to `closed` is not live; every other slot keeps its
invariant consequence.  Helper for the `closeEvt` case. -/
theorem liveInv_set_closed (s : MState) (hinv : liveInv s) (g0 : Nat)
    (hlt : g0 < s.socks.length) (g : Nat) (st : SockSt)
    (hg : (s.socks.set g0 SockSt.closed)[g]? = some st)
    (hlive : st.live = true) : s.wsRef = some g := by
  by_cases hgg : g0 = g
  · subst hgg
    rw [List.getElem?_set_eq_of_lt _ hlt] at hg
    cases Option.some_inj.mp hg
    cases hlive
  · rw [List.getElem?_set_ne hgg] at hg
    exact hinv g st hg hlive

/-- A socket on which `ws.close()` was called is not live; every other slot
keeps its invariant consequence.  Helper for the `errorEvt` case. -/
theorem liveInv_closeSock (s : MState) (hinv : liveInv s) (g0 : Nat)
    (g : Nat) (st : SockSt) (hg : (closeSock g0 s.socks)[g]? = some st)
    (hlive : st.live = true) : s.wsRef = some g := by
  by_cases hgg : g0 = g
  · subst hgg
    rw [closeSock_not_live g0 s.socks st hg] at hlive
    cases hlive
  · rw [getElem?_closeSock_ne g0 g s.socks hgg] at hg
    exact hinv g st hg hlive

/-- Every step of the controller preserves the invariant. -/
theorem liveInv_step (e : Ev) (s : MState) (hinv : liveInv s) :
    liveInv (step e s) := by
  cases e with
  | openEvt g0 =>
    rw [step]
    split
    next hcond =>
      intro g st hg hlive
      have hg' : (s.socks.set g0 SockSt.opened)[g]? = some st := hg
      show s.wsRef = some g
      by_cases hgg : g0 = g
      · subst hgg
        exact hinv g0 SockSt.connecting hcond rfl
      · rw [List.getElem?_set_ne hgg] at hg'
        exact hinv g st hg' hlive
    next => exact hinv
  | closeEvt g0 =>
    rw [step]
    split
    next hcond =>
      intro g st hg hlive
      exact liveInv_set_closed s hinv g0 (List.getElem?_eq_some.mp hcond).1
        g st hg hlive
    next hcond =>
      intro g st hg hlive
      exact liveInv_set_closed s hinv g0 (List.getElem?_eq_some.mp hcond).1
        g st hg hlive
    next hcond =>
      intro g st hg hlive
      exact liveInv_set_closed s hinv g0 (List.getElem?_eq_some.mp hcond).1
        g st hg hlive
    next => exact hinv
  | errorEvt g0 =>
    rw [step]
    split
    next =>
      intro g st hg hlive
      exact liveInv_closeSock s hinv g0 g st hg hlive
    next =>
      intro g st hg hlive
      exact liveInv_closeSock s hinv g0 g st hg hlive
    next => exact hinv
  | timerFire =>
    rw [step]
    split
    next =>
      intro g st hg hlive
      exact liveInv_connect { s with reconnectTimer := none } hinv g st hg hlive
    next => exact hinv
  | teardown =>
    intro g st hg hlive
    exact (closeCurrent_no_live s hinv g st hg hlive).elim

/-- The invariant holds right after mount. -/
theorem liveInv_start : liveInv start := by
  apply liveInv_connect
  intro g st hg _
  cases g <;> cases hg

/-- The invariant holds after any sequence of environment events. -/
theorem liveInv_run (es : List Ev) (s : MState) (hinv : liveInv s) :
    liveInv (run es s) := by
  induction es generalizing s with
  | nil => exact hinv
  | cons e es ih => exact ih (step e s) (liveInv_step e s hinv)

/-- C3: after any sequence of open, close, error, timer, and teardown
events, at most one live Connection exists: any two live sockets are the
same generation (because `connect()` closes the socket held in `wsRef`
before opening a new one, and only the newly opened socket becomes
current). -/
theorem at_most_one_live_connection (es : List Ev) (g1 g2 : Nat)
    (st1 st2 : SockSt) (h1 : (run es start).socks[g1]? = some st1)
    (l1 : st1.live = true) (h2 : (run es start).socks[g2]? = some st2)
    (l2 : st2.live = true) : g1 = g2 := by
  have hinv := liveInv_run es start liveInv_start
  have e1 := hinv g1 st1 h1 l1
  have e2 := hinv g2 st2 h2 l2
  exact Option.some_inj.mp (e1.symm.trans e2)

/-- Witness for C3 on a concrete trace: after one failed connection and one
reconnect, generation 1 is the only live socket. -/
theorem at_most_one_live_connection_witness : (1 : Nat) = 1 :=
  at_most_one_live_connection [Ev.closeEvt 0, Ev.timerFire] 1 1
    SockSt.connecting SockSt.connecting rfl rfl rfl rfl

/-- One consecutive connection failure: the current socket's close event is
delivered (`ws.onclose` schedules a reconnect) and the backoff timer then
fires (`connect()` runs and the delay doubles, capped). -/
def failCycle (s : MState) : MState :=
  step Ev.timerFire (step (Ev.closeEvt (s.wsRef.getD 0)) s)

/-- `N` consecutive connection failures. -/
def cycles : Nat → MState → MState
  | 0, s => s
  | n + 1, s => failCycle (cycles n s)

/-- Closed form of one failure cycle from a state whose current socket is
still connecting and whose reconnect timer is clear. -/
theorem failCycle_eq (s : MState) (g : Nat) (hws : s.wsRef = some g)
    (hsock : s.socks[g]? = some SockSt.connecting) :
    failCycle s
      = { delay := min (s.delay * 2) 30000,
          wsRef := some s.socks.length,
          socks := s.socks.set g SockSt.closed ++ [SockSt.connecting],
          reconnectTimer := none, heartbeat := none,
          schedCount := s.schedCount + 1 } := by
  have hg : s.wsRef.getD 0 = g := by rw [hws]; rfl
  have hlt : g < s.socks.length := (List.getElem?_eq_some.mp hsock).1
  have hset : (s.socks.set g SockSt.closed)[g]? = some SockSt.closed :=
    List.getElem?_set_eq_of_lt _ hlt
  simp only [failCycle, hg, step, hsock, scheduleReconnect]
  simp only [connect, closeCurrent, hws, closeSock, hset, List.length_set]

/-- Shape and delay of the controller after `N` consecutive failures from
mount: the stored backoff delay is `min (1000 * 2 ^ N) 30000`, the timer is
clear, and the current socket is a fresh connecting one. -/
theorem cycles_start (N : Nat) :
    (cycles N start).delay = min (1000 * 2 ^ N) 30000 ∧
      (cycles N start).reconnectTimer = none ∧
      ∃ g, (cycles N start).wsRef = some g ∧
        (cycles N start).socks[g]? = some SockSt.connecting := by
  induction N with
  | zero => exact ⟨by decide, rfl, 0, rfl, rfl⟩
  | succ n ih =>
    obtain ⟨hd, ht, g, hws, hsock⟩ := ih
    have heq := failCycle_eq (cycles n start) g hws hsock
    have hlen : ((cycles n start).socks.set g SockSt.closed).length
        = (cycles n start).socks.length := List.length_set ..
    refine ⟨?_, ?_, (cycles n start).socks.length, ?_, ?_⟩
    · show (failCycle (cycles n start)).delay = _
      rw [heq]
      show min ((cycles n start).delay * 2) 30000 = _
      rw [hd, pow_succ]
      omega
    · show (failCycle (cycles n start)).reconnectTimer = none
      rw [heq]
    · show (failCycle (cycles n start)).wsRef = _
      rw [heq]
    · show (failCycle (cycles n start)).socks[(cycles n start).socks.length]?
        = some SockSt.connecting
      rw [heq]
      show ((cycles n start).socks.set g SockSt.closed
        ++ [SockSt.connecting])[(cycles n start).socks.length]? = _
      rw [← hlen]
      exact List.getElem?_concat_length ..

/-- C4: the backoff delay stored after `N` consecutive connection failures
(each failure = close event + backoff timer firing) equals
`min (1000 * 2 ^ N) 30000` milliseconds; a successful open resets the delay
to the 1000 ms floor; and on the concrete scenario the first failure waits
1000 ms, the second 2000 ms, and after a successful open the next failure
waits 1000 ms again. -/
theorem backoff_doubles_and_resets :
    (∀ N, (cycles N start).delay = min (1000 * 2 ^ N) 30000) ∧
      (∀ s g, s.socks[g]? = some SockSt.connecting →
        (step (Ev.openEvt g) s).delay = 1000) ∧
      (run [Ev.closeEvt 0] start).reconnectTimer = some 1000 ∧
      (run [Ev.closeEvt 0, Ev.timerFire, Ev.closeEvt 1] start).reconnectTimer
        = some 2000 ∧
      (run [Ev.closeEvt 0, Ev.timerFire, Ev.closeEvt 1, Ev.timerFire,
        Ev.openEvt 2, Ev.closeEvt 2] start).reconnectTimer = some 1000 := by
  refine ⟨fun N => (cycles_start N).1, fun s g h => ?_, rfl, rfl, rfl⟩
  simp [step, h]

/-- Witness for C4: a successful open of the freshly mounted controller's
socket resets the delay to 1000 ms. -/
theorem backoff_doubles_and_resets_witness :
    (step (Ev.openEvt 0) start).delay = 1000 :=
  backoff_doubles_and_resets.2.1 start 0 rfl

/-- C10: the `onerror` handler only closes the socket — it never touches
the reconnect timer, the schedule counter, the heartbeat, or `wsRef` — and
an error on an open socket followed by the resulting close event runs
`scheduleReconnect` exactly once (the close handler alone stops the
heartbeat and arms one backoff timer). -/
theorem error_never_schedules_directly :
    (∀ s g, (step (Ev.errorEvt g) s).reconnectTimer = s.reconnectTimer ∧
      (step (Ev.errorEvt g) s).schedCount = s.schedCount ∧
      (step (Ev.errorEvt g) s).heartbeat = s.heartbeat ∧
      (step (Ev.errorEvt g) s).wsRef = s.wsRef) ∧
    (∀ s g, s.socks[g]? = some SockSt.opened →
      (step (Ev.closeEvt g) (step (Ev.errorEvt g) s)).schedCount
          = s.schedCount + 1 ∧
        (step (Ev.closeEvt g) (step (Ev.errorEvt g) s)).reconnectTimer
          = some s.delay ∧
        (step (Ev.closeEvt g) (step (Ev.errorEvt g) s)).heartbeat = none) := by
  constructor
  · intro s g
    simp only [step]
    split <;> exact ⟨rfl, rfl, rfl, rfl⟩
  · intro s g h
    have hlt : g < s.socks.length := (List.getElem?_eq_some.mp h).1
    have h1 : step (Ev.errorEvt g) s = { s with socks := closeSock g s.socks } := by
      simp only [step, h]
    have h2 : closeSock g s.socks = s.socks.set g SockSt.closing := by
      unfold closeSock
      rw [h]
    have h3 : (s.socks.set g SockSt.closing)[g]? = some SockSt.closing :=
      List.getElem?_set_eq_of_lt _ hlt
    rw [h1, h2]
    simp [step, h3, scheduleReconnect]

/-- Witness for C10 at a concrete state: the opened socket of the mounted
controller errors and then closes; exactly one reconnect is scheduled. -/
theorem error_never_schedules_directly_witness :
    (step (Ev.closeEvt 0) (step (Ev.errorEvt 0)
        (run [Ev.openEvt 0] start))).schedCount
        = (run [Ev.openEvt 0] start).schedCount + 1 ∧
      (step (Ev.closeEvt 0) (step (Ev.errorEvt 0)
        (run [Ev.openEvt 0] start))).reconnectTimer
        = some (run [Ev.openEvt 0] start).delay ∧
      (step (Ev.closeEvt 0) (step (Ev.errorEvt 0)
        (run [Ev.openEvt 0] start))).heartbeat = none :=
  error_never_schedules_directly.2 (run [Ev.openEvt 0] start) 0 rfl

/-- C1 (counter-evidence / code bug): the `useEffect` cleanup does cancel
the pending timers (first two conjuncts), but `ws.onclose` has no shutdown
guard: when the closed socket's close event is delivered after teardown,
`scheduleReconnect` re-arms the backoff timer (third conjunct), and when
that timer fires `connect()` creates a new connecting socket — a
`Connecting` transition after `stop()` (last two conjuncts). -/
theorem reconnect_after_teardown :
    (run [Ev.openEvt 0, Ev.teardown] start).reconnectTimer = none ∧
      (run [Ev.openEvt 0, Ev.teardown] start).heartbeat = none ∧
      (run [Ev.openEvt 0, Ev.teardown, Ev.closeEvt 0] start).reconnectTimer
        = some 1000 ∧
      (run [Ev.openEvt 0, Ev.teardown, Ev.closeEvt 0, Ev.timerFire]
        start).socks.length = 2 ∧
      (run [Ev.openEvt 0, Ev.teardown, Ev.closeEvt 0, Ev.timerFire]
        start).socks[1]? = some SockSt.connecting :=
  ⟨rfl, rfl, rfl, rfl, rfl⟩

/-- Witness for C6 at a concrete cache, event, and slot. -/
theorem dispatch_patches_only_named_fields_witness :
    (handleEvent evDown [acme]).1.length = ([acme] : List Client).length ∧
      ({ acme with state := evDown.state } : Client).id = acme.id ∧
      ({ acme with state := evDown.state } : Client).name = acme.name ∧
      (evDown.event = "state_update" →
        ({ acme with state := evDown.state } : Client).status = acme.status ∧
        ({ acme with state := evDown.state } : Client).billing_date
          = acme.billing_date) ∧
      (evDown.event = "billing_update" →
        ({ acme with state := evDown.state } : Client).state = acme.state) ∧
      (evDown.event ≠ "state_update" → evDown.event ≠ "billing_update" →
        ({ acme with state := evDown.state } : Client) = acme) ∧
      (acme.id ≠ eventKey evDown →
        ({ acme with state := evDown.state } : Client) = acme) :=
  dispatch_patches_only_named_fields evDown [acme] 0 acme
    { acme with state := evDown.state } rfl (by decide)

end JJNet
